import Mathlib

/-!
Shallow embedding of the semantic-analysis pipeline of the
AutomatedTriageSystem repository, with theorems settling the frozen claims.

Two near-duplicate pipeline variants exist in the repository:
namespace `SA` embeds
`CascadeProjects/ExcelAnalysisPlatform/semantic-service/semantic_analyzer.py`,
namespace `NoSSL` embeds `semantic-service/semantic_analyzer_no_ssl.py`.
Namespace `Py` models the Python / numpy library primitives the source uses
(str.split, str.strip, str.title, stable sorting as performed by
`list.sort` / `sorted` / `Counter.most_common`, and `np.argmin`).

Real-valued quantities (embedding coordinates, cosine similarities) are
modelled over `ℚ`; the cosine-similarity function itself is an external
collaborator (sklearn) and is taken as a function parameter.  Euclidean
distances are modelled by the squared distance `sqDist`: `np.linalg.norm`
is its monotone square root, so all comparisons and argmins agree.
-/

namespace Py

/-- Split a character list at whitespace characters, keeping empty pieces
    (they are filtered away by `pySplit`, as Python `str.split()` does). -/
def splitWsAux (cur : List Char) : List Char → List (List Char)
  | [] => [cur.reverse]
  | c :: cs =>
    if c.isWhitespace then cur.reverse :: splitWsAux [] cs
    else splitWsAux (c :: cur) cs

/-- Model of Python `str.split()` with no argument: split on whitespace runs,
    discarding empty pieces. -/
def pySplit (s : String) : List String :=
  ((splitWsAux [] s.toList).map (fun cs => String.mk cs)).filter (fun t => t ≠ "")

/-- Model of Python `str.lower()` (ASCII case folding, which covers every
    string this development evaluates). -/
def pyLower (s : String) : String :=
  String.mk (s.toList.map Char.toLower)

/-- Model of the Python slice `s[:n]`: the first `n` code points. -/
def strTake (s : String) (n : ℕ) : String :=
  String.mk (s.toList.take n)

/-- Model of the Python test `not s or not s.strip()`: the string is empty
    or consists of whitespace only. -/
def isBlank (s : String) : Bool :=
  s.toList.all Char.isWhitespace

/-- The fixed punctuation set `'.,!?;:'` used by `str.strip('.,!?;:')`. -/
def isPunct (c : Char) : Bool :=
  c = '.' || c = ',' || c = '!' || c = '?' || c = ';' || c = ':'

/-- Model of Python `str.strip('.,!?;:')`: remove characters of the set from
    both edges of the string. -/
def pyStrip (s : String) : String :=
  String.mk (((s.toList.dropWhile isPunct).reverse.dropWhile isPunct).reverse)

/-- Model of Python `str.title()`: a character is upper-cased when the
    previous character is not alphabetic, lower-cased otherwise. -/
def pyTitle (s : String) : String :=
  String.mk ((s.toList.foldl
    (fun (acc : List Char × Bool) c =>
      (acc.1 ++ [if acc.2 then c.toLower else c.toUpper], c.isAlpha))
    ([], false)).1)

/-- Substring containment, modelling Python's `needle in hay`. -/
def strContains (hay needle : String) : Bool :=
  (List.range (hay.toList.length + 1)).any
    (fun i => needle.toList.isPrefixOf (hay.toList.drop i))

/-- Worker for `uniqKeepFirst`: drop elements already seen. -/
def uniqKeepFirstAux {α : Type} [DecidableEq α] (seen : List α) :
    List α → List α
  | [] => []
  | a :: l =>
    if a ∈ seen then uniqKeepFirstAux seen l
    else a :: uniqKeepFirstAux (a :: seen) l

/-- First-seen deduplication: the key order of a Python `dict` / `Counter`
    built by insertion, and the distinct elements counted by `len(set(..))`. -/
def uniqKeepFirst {α : Type} [DecidableEq α] (l : List α) : List α :=
  uniqKeepFirstAux [] l

section StableSort

variable {α : Type} {β : Type} [LinearOrder β]

/-- Insert `x` (a later element of the original list) into an already
    descending-sorted list, after all elements with a key `≥` its own:
    the insertion step of a stable descending sort. -/
def insertDescStable (key : α → β) (x : α) : List α → List α
  | [] => [x]
  | y :: ys => if key x < key y then y :: insertDescStable key x ys else x :: y :: ys

/-- Stable sort by key, descending: the behaviour of Python
    `list.sort(key=.., reverse=True)` / `sorted(.., reverse=True)`. -/
def sortByDesc (key : α → β) : List α → List α
  | [] => []
  | x :: xs => insertDescStable key x (sortByDesc key xs)

/-- Insert for the stable ascending sort (Python `sorted(..)`, and the
    order produced by a stable `np.argsort` model). -/
def insertAscStable (key : α → β) (x : α) : List α → List α
  | [] => [x]
  | y :: ys => if key y < key x then y :: insertAscStable key x ys else x :: y :: ys

/-- Stable sort by key, ascending. -/
def sortByAsc (key : α → β) : List α → List α
  | [] => []
  | x :: xs => insertAscStable key x (sortByAsc key xs)

end StableSort

/-- Model of `np.argmin` on a non-empty list: the index of the first
    occurrence of the minimum value. -/
def argminIdx : List ℚ → ℕ
  | [] => 0
  | x :: xs =>
    match xs with
    | [] => 0
    | _ :: _ => if x ≤ xs.getD (argminIdx xs) 0 then 0 else argminIdx xs + 1


end Py

namespace SA

/-- The fixed stop-word set of `extract_keywords` in
    `semantic_analyzer.py`, reproduced verbatim. -/
def stopwords : List String :=
  ["the", "a", "an", "and", "or", "but", "in", "on", "at", "to", "for",
   "of", "with", "by", "from", "as", "is", "was", "are", "were", "be",
   "have", "has", "had", "do", "does", "did", "will", "would", "could",
   "should", "may", "might", "must", "can", "this", "that", "these", "those"]

/-- Embedding of `extract_keywords(comments, top_n)` from
    `semantic_analyzer.py`: tokenize each comment on whitespace, keep tokens
    whose RAW length exceeds 3 and whose lower-cased RAW form is not a stop
    word, then lower-case and strip the punctuation set from the kept tokens;
    count frequencies and return the `top_n` most frequent words, ties broken
    by first-seen order (`Counter.most_common` is count-stable). -/
def extract_keywords (comments : List String) (top_n : ℕ) : List String :=
  let words := comments.flatMap (fun comment =>
    ((Py.pySplit comment).filter
        (fun word => 3 < word.length &&
          !(stopwords.contains (Py.pyLower word)))).map
      (fun word => Py.pyStrip (Py.pyLower word)))
  let word_counts := (Py.uniqKeepFirst words).map (fun w => (w, words.count w))
  ((Py.sortByDesc (fun p => p.2) word_counts).map Prod.fst).take top_n

/-- The ordered substring-to-label rule table of `generate_theme_name`
    (a Python dict iterated in insertion order). -/
def theme_mapping : List (String × String) :=
  [("staff", "Staffing and Workforce"),
   ("fund", "Funding and Resources"),
   ("train", "Training and Development"),
   ("vaccine", "Vaccination Programs"),
   ("covid", "COVID-19 Response"),
   ("patient", "Patient Care"),
   ("health", "Health Services"),
   ("program", "Program Implementation"),
   ("community", "Community Engagement"),
   ("technology", "Technology and Systems"),
   ("capacity", "Capacity Building"),
   ("partnership", "Partnerships and Collaboration")]

/-- Embedding of `generate_theme_name(keywords)`: first matching rule over
    the top 3 keywords wins; otherwise join the top 2 keywords with " and "
    separator `" & "` and title-case; `"General Comments"` when empty. -/
def generate_theme_name (keywords : List String) : String :=
  if keywords.isEmpty then "General Comments"
  else
    match (keywords.take 3).findSome? (fun keyword =>
      theme_mapping.findSome? (fun rule =>
        if Py.strContains (Py.pyLower keyword) rule.1 then some rule.2
        else none)) with
    | some theme => theme
    | none => Py.pyTitle (String.intercalate " & " (keywords.take 2))

/-- Squared Euclidean distance between two vectors.  The source computes
    `np.linalg.norm(v - centroid)`, i.e. the square root of this quantity;
    the square root is strictly monotone, so all comparisons and the argmin
    in `extract_themes` coincide with those on `sqDist`. -/
def sqDist (a b : List ℚ) : ℚ :=
  ((a.zip b).map (fun p => (p.1 - p.2) ^ 2)).sum

/-- The comments of one cluster, in original order:
    `[comments[i] for i, label in enumerate(cluster_labels) if label == cid]`. -/
def clusterMembers (comments : List String) (labels : List ℕ) (cid : ℕ) :
    List String :=
  ((comments.zip labels).filter (fun p => p.2 == cid)).map Prod.fst

/-- The embedding rows of one cluster, in original order:
    the row selection `embeddings[cluster_labels == cid]`. -/
def clusterEmbs (embeddings : List (List ℚ)) (labels : List ℕ) (cid : ℕ) :
    List (List ℚ) :=
  ((embeddings.zip labels).filter (fun p => p.2 == cid)).map Prod.fst

/-- One theme record, as assembled by `extract_themes`. -/
structure Theme where
  theme_id : ℕ
  theme_name : String
  comment_count : ℕ
  keywords : List String
  representative_comment : String
  sample_comments : List String
deriving DecidableEq

/-- One iteration of the `extract_themes` loop, for a single cluster id:
    `none` for an empty cluster (the `continue`), otherwise the theme record
    appended by the source — the member closest to the centroid
    (`np.argmin` over the per-member distances, first minimum wins)
    truncated to 200 characters as representative, keywords, a theme name,
    and the first 3 members (NOT truncated) as samples. -/
def mkTheme (comments : List String) (labels : List ℕ)
    (embeddings centroids : List (List ℚ)) (cluster_id : ℕ) : Option Theme :=
  let cluster_comments := clusterMembers comments labels cluster_id
  if cluster_comments.isEmpty then none
  else
    let cluster_embeddings := clusterEmbs embeddings labels cluster_id
    let centroid := centroids.getD cluster_id []
    let distances := cluster_embeddings.map (fun v => sqDist v centroid)
    let representative_idx := Py.argminIdx distances
    let representative_comment := cluster_comments.getD representative_idx ""
    let keywords := extract_keywords cluster_comments 10
    some { theme_id := cluster_id,
           theme_name := generate_theme_name keywords,
           comment_count := cluster_comments.length,
           keywords := keywords.take 10,
           representative_comment := Py.strTake representative_comment 200,
           sample_comments := cluster_comments.take 3 }

/-- Embedding of `extract_themes(comments, cluster_labels, embeddings,
    centroids)`: run `mkTheme` for each cluster id in
    `range(len(centroids))`, then stably sort the records by member count,
    descending (`themes.sort(key=.., reverse=True)`). -/
def extract_themes (comments : List String) (labels : List ℕ)
    (embeddings centroids : List (List ℚ)) : List Theme :=
  Py.sortByDesc (fun t => t.comment_count)
    ((List.range centroids.length).filterMap
      (mkTheme comments labels embeddings centroids))

/-- One organization profile, as assembled by `analyze_by_organization`. -/
structure OrgProfile where
  comment_count : ℕ
  coherence_score : ℚ
  top_keywords : List String
deriving DecidableEq

/-- The comment indices of one organization:
    `[i for i, o in enumerate(organizations) if o == org]`. -/
def orgIndices (organizations : List String) (org : String) : List ℕ :=
  (organizations.enum.filter (fun p => p.2 == org)).map Prod.fst

/-- The strictly-upper-triangular entries (diagonal excluded) of the
    pairwise similarity matrix of `vs`, row by row: the entries selected by
    `similarities[np.triu_indices_from(similarities, k=1)]`.  The cosine
    similarity itself is computed by the external collaborator and passed
    as `cosSim`. -/
def upper_tri_sims (cosSim : List ℚ → List ℚ → ℚ) (vs : List (List ℚ)) :
    List ℚ :=
  (List.range vs.length).flatMap (fun i =>
    (List.range' (i + 1) (vs.length - (i + 1))).map (fun j =>
      cosSim (vs.getD i []) (vs.getD j [])))

/-- Embedding of `analyze_by_organization(comments, organizations,
    embeddings)` of `semantic_analyzer.py`: for each distinct organization
    label (this variant does NOT skip empty labels), gather its comments and
    embedding rows, compute the coherence score (mean of the strict upper
    triangle of the intra-group similarity matrix, or `1.0` for a single
    member) and the top 5 keywords.  Python's `set` iteration order is
    unspecified; the mapping is modelled as an association list over the
    distinct labels in first-seen order, which leaves membership and the
    per-key values unchanged.  `orgProfile` is one loop iteration: `none`
    when the label has no comment indices, otherwise the label's profile. -/
def orgProfile (comments organizations : List String)
    (embeddings : List (List ℚ)) (cosSim : List ℚ → List ℚ → ℚ)
    (org : String) : Option (String × OrgProfile) :=
  let org_indices := orgIndices organizations org
  if org_indices.isEmpty then none
  else
    let org_embeddings := org_indices.map (fun i => embeddings.getD i [])
    let org_comments := org_indices.map (fun i => comments.getD i "")
    let coherence : ℚ :=
      if 1 < org_embeddings.length then
        let sims := upper_tri_sims cosSim org_embeddings
        sims.sum / (sims.length : ℚ)
      else 1
    some (org, { comment_count := org_comments.length,
                 coherence_score := coherence,
                 top_keywords := extract_keywords org_comments 5 })

/-- The full organization mapping: `orgProfile` over the distinct labels. -/
def analyze_by_organization (comments organizations : List String)
    (embeddings : List (List ℚ)) (cosSim : List ℚ → List ℚ → ℚ) :
    List (String × OrgProfile) :=
  (Py.uniqKeepFirst organizations).filterMap
    (orgProfile comments organizations embeddings cosSim)

/-- One similar-comment pair, as emitted by `find_similar_comments`. -/
structure SimilarPair where
  comment1 : String
  comment2 : String
  similarity : ℚ
deriving DecidableEq

/-- Embedding of `find_similar_comments(comments, embeddings, threshold)`:
    for every index pair `i < j` whose similarity reaches the threshold,
    emit both texts truncated to 150 characters plus the score, then stably
    sort by similarity, descending.  `sim i j` stands for the entry
    `similarities[i][j]` of the cosine-similarity matrix computed by the
    external collaborator. -/
def find_similar_comments (comments : List String) (sim : ℕ → ℕ → ℚ)
    (threshold : ℚ) : List SimilarPair :=
  let pairs := (List.range comments.length).flatMap (fun i =>
    (List.range' (i + 1) (comments.length - (i + 1))).filterMap (fun j =>
      if threshold ≤ sim i j then
        some { comment1 := Py.strTake (comments.getD i "") 150,
               comment2 := Py.strTake (comments.getD j "") 150,
               similarity := sim i j }
      else none))
  Py.sortByDesc (fun p => p.similarity) pairs

/-- Embedding of the per-dimension variance heuristic
    `analyze_sentiment_patterns(embeddings)`: mean of the per-column
    variances, classified by the fixed thresholds. -/
def analyze_sentiment_patterns (embeddings : List (List ℚ)) : String × ℚ :=
  let d := (embeddings.getD 0 []).length
  let col := fun j => embeddings.map (fun row => row.getD j 0)
  let mean := fun (l : List ℚ) => l.sum / (l.length : ℚ)
  let variance := fun (l : List ℚ) =>
    mean (l.map (fun x => (x - mean l) ^ 2))
  let mean_variance := mean ((List.range d).map (fun j => variance (col j)))
  if mkRat 1 10 < mean_variance then ("Mixed/Diverse", mean_variance)
  else if mkRat 1 20 < mean_variance then ("Moderate Consensus", mean_variance)
  else ("Strong Consensus", mean_variance)

/-- The dynamic cluster count of the `/analyze` pipeline, line
    `n_clusters = min(8, max(3, len(comments) // 10))`. -/
def n_clusters (n : ℕ) : ℕ := min 8 (max 3 (n / 10))

/-- Modelled from the spec and the documented contract of the external
    clustering collaborator (`sklearn.cluster.KMeans`), whose source is not
    part of this repository: `fit_predict` raises a `ValueError` when the
    number of samples is smaller than the number of clusters, and otherwise
    returns one integer label per point together with the cluster centroids.
    The concrete assignment computed by k-means is abstracted as the
    `assign` parameter; the raised error surfaces as the pipeline's HTTP 500
    response. -/
def kmeans_fit_predict (assign : ℕ → List (List ℚ) → List ℕ × List (List ℚ))
    (k : ℕ) (points : List (List ℚ)) :
    Except (ℕ × String) (List ℕ × List (List ℚ)) :=
  if points.length < k then
    Except.error (500, "n_samples should be >= n_clusters")
  else
    Except.ok (assign k points)

/-- The response record of the `/analyze` endpoint. -/
structure AnalyzeResult where
  total_comments : ℕ
  total_organizations : ℕ
  themes : List Theme
  organization_insights : List (String × OrgProfile)
  similar_comment_pairs : List SimilarPair
  sentiment_pattern : String
  embedding_dimension : ℕ

/-- Embedding of the `/analyze` handler `analyze_comments`: reject an empty
    comment list with a 400; encode the whole batch once (`encode` abstracts
    the sentence-transformer collaborator); run k-means with the derived
    cluster count; assemble themes, organization insights, the top 20
    similar pairs and the sentiment proxy.  Any error raised inside the
    handler is caught by the blanket `except` and surfaced as a 500. -/
def analyze_comments (comments organizations : List String)
    (encode : List String → List (List ℚ))
    (assign : ℕ → List (List ℚ) → List ℕ × List (List ℚ))
    (cosSim : List ℚ → List ℚ → ℚ) :
    Except (ℕ × String) AnalyzeResult :=
  if comments.isEmpty then Except.error (400, "No comments provided")
  else
    let embeddings := encode comments
    match kmeans_fit_predict assign (n_clusters comments.length) embeddings with
    | Except.error e => Except.error e
    | Except.ok (cluster_labels, centers) =>
      Except.ok
        { total_comments := comments.length,
          total_organizations := (Py.uniqKeepFirst organizations).length,
          themes := extract_themes comments cluster_labels embeddings centers,
          organization_insights :=
            analyze_by_organization comments organizations embeddings cosSim,
          similar_comment_pairs :=
            (find_similar_comments comments
              (fun i j => cosSim (embeddings.getD i []) (embeddings.getD j []))
              (mkRat 7 10)).take 20,
          sentiment_pattern := (analyze_sentiment_patterns embeddings).1,
          embedding_dimension := (embeddings.getD 0 []).length }

/-- One ranked result of the `/similarity` endpoint. -/
structure RankedResult where
  text : String
  similarity : ℚ
  rank : ℕ
deriving DecidableEq

/-- Model of `np.argsort(similarities)`: the indices `0..n-1` sorted by
    value, ascending.  Numpy's default sort leaves the order of tied values
    unspecified; this model fixes the stable order, which agrees with numpy
    whenever the values are pairwise distinct. -/
def argsort (vals : List ℚ) : List ℕ :=
  Py.sortByAsc (fun i => vals.getD i 0) (List.range vals.length)

/-- Embedding of the `/similarity` handler `calculate_similarity`: reject a
    missing query or empty candidate list with a 400; otherwise iterate the
    original candidate indices in descending-similarity order
    (`np.argsort(similarities)[::-1]`) and emit, for each original index
    `i`, the candidate text, its similarity and `rank := i + 1` — the field
    is computed from the ORIGINAL index, exactly as the source line
    `'rank': i+1` does.  `similarities` abstracts the cosine similarities
    of the candidates to the query, one per candidate, as produced by the
    external model collaborator. -/
def calculate_similarity (query : String) (candidates : List String)
    (similarities : List ℚ) :
    Except (ℕ × String) (String × List RankedResult) :=
  if query.isEmpty || candidates.isEmpty then
    Except.error (400, "Query and candidates required")
  else
    Except.ok (query,
      ((argsort similarities).reverse).map (fun i =>
        { text := candidates.getD i "",
          similarity := similarities.getD i 0,
          rank := i + 1 }))

end SA

namespace NoSSL

/-- The fixed stop-word set of `extract_keywords` in
    `semantic_analyzer_no_ssl.py`, reproduced verbatim. -/
def stopwords : List String :=
  ["the", "a", "an", "and", "or", "but", "in", "on", "at", "to", "for",
   "of", "with", "by", "from", "as", "is", "was", "are", "were", "be",
   "have", "has", "had", "do", "does", "did", "will", "would", "could",
   "should", "may", "might", "must", "can", "this", "that", "these", "those"]

/-- Embedding of `extract_keywords(comments, top_n)` from
    `semantic_analyzer_no_ssl.py` (same token filter on the raw token, then
    lower-case and strip, then `Counter.most_common(top_n)`). -/
def extract_keywords (comments : List String) (top_n : ℕ) : List String :=
  let words := comments.flatMap (fun comment =>
    ((Py.pySplit comment).filter
        (fun word => 3 < word.length &&
          !(stopwords.contains (Py.pyLower word)))).map
      (fun word => Py.pyStrip (Py.pyLower word)))
  let word_counts := (Py.uniqKeepFirst words).map (fun w => (w, words.count w))
  ((Py.sortByDesc (fun p => p.2) word_counts).map Prod.fst).take top_n

/-- The ordered substring-to-label rule table of `generate_theme_name` in
    `semantic_analyzer_no_ssl.py`. -/
def theme_mapping : List (String × String) :=
  [("staff", "Staffing and Workforce"),
   ("fund", "Funding and Resources"),
   ("train", "Training and Development"),
   ("vaccine", "Vaccination Programs"),
   ("covid", "COVID-19 Response"),
   ("patient", "Patient Care"),
   ("health", "Health Services"),
   ("program", "Program Implementation"),
   ("community", "Community Engagement"),
   ("technology", "Technology and Systems"),
   ("capacity", "Capacity Building"),
   ("partnership", "Partnerships and Collaboration")]

/-- Embedding of `generate_theme_name(keywords)` from
    `semantic_analyzer_no_ssl.py`. -/
def generate_theme_name (keywords : List String) : String :=
  if keywords.isEmpty then "General Comments"
  else
    match (keywords.take 3).findSome? (fun keyword =>
      theme_mapping.findSome? (fun rule =>
        if Py.strContains (Py.pyLower keyword) rule.1 then some rule.2
        else none)) with
    | some theme => theme
    | none => Py.pyTitle (String.intercalate " & " (keywords.take 2))

/-- The comment indices of one organization, as in the no-SSL variant. -/
def orgIndices (organizations : List String) (org : String) : List ℕ :=
  (organizations.enum.filter (fun p => p.2 == org)).map Prod.fst

/-- Strict upper-triangle similarity entries, as in the no-SSL variant. -/
def upper_tri_sims (cosSim : List ℚ → List ℚ → ℚ) (vs : List (List ℚ)) :
    List ℚ :=
  (List.range vs.length).flatMap (fun i =>
    (List.range' (i + 1) (vs.length - (i + 1))).map (fun j =>
      cosSim (vs.getD i []) (vs.getD j [])))

/-- Embedding of `analyze_by_organization` from
    `semantic_analyzer_no_ssl.py`.  Unlike the `SA` variant, this one begins
    each iteration with `if not org or not org.strip(): continue`, skipping
    empty and whitespace-only organization labels. -/
def analyze_by_organization (comments organizations : List String)
    (embeddings : List (List ℚ)) (cosSim : List ℚ → List ℚ → ℚ) :
    List (String × SA.OrgProfile) :=
  (Py.uniqKeepFirst organizations).filterMap (fun org =>
    if Py.isBlank org then none
    else
      let org_indices := orgIndices organizations org
      if org_indices.isEmpty then none
      else
        let org_embeddings := org_indices.map (fun i => embeddings.getD i [])
        let org_comments := org_indices.map (fun i => comments.getD i "")
        let coherence : ℚ :=
          if 1 < org_embeddings.length then
            let sims := upper_tri_sims cosSim org_embeddings
            sims.sum / (sims.length : ℚ)
          else 1
        some (org, { comment_count := org_comments.length,
                     coherence_score := coherence,
                     top_keywords := extract_keywords org_comments 5 }))

end NoSSL


/-!
Library lemmas about the Python/numpy models, used by the claim theorems.
-/

namespace Py

theorem mem_of_mem_uniqKeepFirstAux {α : Type} [DecidableEq α] :
    ∀ (l seen : List α) (x : α), x ∈ uniqKeepFirstAux seen l → x ∈ l := by
  intro l
  induction l with
  | nil => intro seen x h; simp [uniqKeepFirstAux] at h
  | cons a l ih =>
    intro seen x h
    rw [uniqKeepFirstAux] at h
    split at h
    · exact List.mem_cons_of_mem _ (ih seen x h)
    · rcases List.mem_cons.mp h with h | h
      · exact h ▸ List.mem_cons_self _ _
      · exact List.mem_cons_of_mem _ (ih _ x h)

theorem mem_of_mem_uniqKeepFirst {α : Type} [DecidableEq α]
    (l : List α) (x : α) (h : x ∈ uniqKeepFirst l) : x ∈ l :=
  mem_of_mem_uniqKeepFirstAux l [] x h

section StableSort

variable {α : Type} {β : Type} [LinearOrder β]

theorem perm_insertDescStable (key : α → β) (x : α) :
    ∀ l : List α, List.Perm (insertDescStable key x l) (x :: l) := by
  intro l
  induction l with
  | nil => simp [insertDescStable]
  | cons y ys ih =>
    rw [insertDescStable]
    split
    · exact (List.Perm.cons y ih).trans (List.Perm.swap x y ys)
    · exact List.Perm.refl _

theorem perm_sortByDesc (key : α → β) :
    ∀ l : List α, List.Perm (sortByDesc key l) l := by
  intro l
  induction l with
  | nil => exact List.Perm.refl _
  | cons x xs ih =>
    rw [sortByDesc]
    exact (perm_insertDescStable key x _).trans (List.Perm.cons x ih)

theorem mem_sortByDesc (key : α → β) (l : List α) (x : α) :
    x ∈ sortByDesc key l ↔ x ∈ l :=
  (perm_sortByDesc key l).mem_iff

theorem pairwise_insertDescStable (key : α → β) (Q : α → α → Prop) (x : α)
    (l : List α)
    (hl : l.Pairwise (fun a b => key b < key a ∨ (key a = key b ∧ Q a b)))
    (hx : ∀ y ∈ l, Q x y) :
    (insertDescStable key x l).Pairwise
      (fun a b => key b < key a ∨ (key a = key b ∧ Q a b)) := by
  induction l with
  | nil => simp [insertDescStable]
  | cons y ys ih =>
    rw [List.pairwise_cons] at hl
    rw [insertDescStable]
    split
    case isTrue h =>
      refine List.pairwise_cons.mpr ⟨?_, ?_⟩
      · intro z hz
        rcases List.mem_cons.mp ((perm_insertDescStable key x ys).mem_iff.mp hz) with hz' | hz'
        · exact hz' ▸ Or.inl h
        · exact hl.1 z hz'
      · exact ih hl.2 (fun z hz => hx z (List.mem_cons_of_mem _ hz))
    case isFalse h =>
      have hyx : key y ≤ key x := le_of_not_lt h
      refine List.pairwise_cons.mpr ⟨?_, List.pairwise_cons.mpr hl⟩
      intro z hz
      rcases List.mem_cons.mp hz with hz' | hz'
      · subst hz'
        rcases lt_or_eq_of_le hyx with hlt | heq
        · exact Or.inl hlt
        · exact Or.inr ⟨heq.symm, hx z (List.mem_cons_self _ _)⟩
      · rcases hl.1 z hz' with hlt | ⟨heq, _⟩
        · exact Or.inl (lt_of_lt_of_le hlt hyx)
        · rcases lt_or_eq_of_le hyx with hlt | heq'
          · exact Or.inl (heq ▸ hlt)
          · exact Or.inr ⟨heq' ▸ heq ▸ rfl, hx z (List.mem_cons_of_mem _ hz')⟩

theorem pairwise_sortByDesc (key : α → β) (Q : α → α → Prop) :
    ∀ l : List α, l.Pairwise Q →
      (sortByDesc key l).Pairwise
        (fun a b => key b < key a ∨ (key a = key b ∧ Q a b)) := by
  intro l hl
  induction l with
  | nil => simp [sortByDesc]
  | cons x xs ih =>
    rw [List.pairwise_cons] at hl
    rw [sortByDesc]
    refine pairwise_insertDescStable key Q x _ (ih hl.2) ?_
    intro y hy
    exact hl.1 y ((mem_sortByDesc key xs y).mp hy)

theorem pairwise_true (l : List α) : l.Pairwise (fun _ _ => True) := by
  induction l with
  | nil => exact List.Pairwise.nil
  | cons x xs ih => exact List.Pairwise.cons (fun _ _ => trivial) ih

theorem sorted_sortByDesc (key : α → β) (l : List α) :
    (sortByDesc key l).Pairwise (fun a b => key b ≤ key a) := by
  have h := pairwise_sortByDesc key (fun _ _ => True) l (pairwise_true l)
  refine h.imp ?_
  intro a b hab
  rcases hab with hlt | ⟨heq, _⟩
  · exact le_of_lt hlt
  · exact le_of_eq heq.symm

theorem sum_map_sortByDesc (key : α → β) (f : α → ℕ) (l : List α) :
    ((sortByDesc key l).map f).sum = (l.map f).sum :=
  ((perm_sortByDesc key l).map f).sum_eq

end StableSort

theorem argminIdx_lt_length : ∀ (l : List ℚ), l ≠ [] → argminIdx l < l.length := by
  intro l
  induction l with
  | nil => intro h; exact absurd rfl h
  | cons x xs ih =>
    intro _
    cases xs with
    | nil => simp [argminIdx]
    | cons y ys =>
      rw [argminIdx]
      split
      · simp
      · have := ih (List.cons_ne_nil y ys)
        simpa [Nat.succ_lt_succ_iff] using this

theorem argminIdx_min : ∀ (l : List ℚ) (j : ℕ), j < l.length →
    l.getD (argminIdx l) 0 ≤ l.getD j 0 := by
  intro l
  induction l with
  | nil => intro j hj; simp at hj
  | cons x xs ih =>
    intro j hj
    cases xs with
    | nil =>
      cases j with
      | zero => simp [argminIdx]
      | succ j' => simp at hj
    | cons y ys =>
      by_cases h : x ≤ (y :: ys).getD (argminIdx (y :: ys)) 0
      · rw [argminIdx]
        simp only [if_pos h]
        cases j with
        | zero => simp
        | succ j' =>
          simp only [List.getD_cons_succ, List.getD_cons_zero]
          exact le_trans h (ih j' (Nat.lt_of_succ_lt_succ hj))
      · rw [argminIdx]
        simp only [if_neg h]
        cases j with
        | zero =>
          simp only [List.getD_cons_succ, List.getD_cons_zero]
          exact le_of_lt (lt_of_not_le h)
        | succ j' =>
          simp only [List.getD_cons_succ]
          exact ih j' (Nat.lt_of_succ_lt_succ hj)

theorem argminIdx_first : ∀ (l : List ℚ) (j : ℕ), j < argminIdx l →
    l.getD (argminIdx l) 0 < l.getD j 0 := by
  intro l
  induction l with
  | nil => intro j hj; simp [argminIdx] at hj
  | cons x xs ih =>
    intro j hj
    cases xs with
    | nil => simp [argminIdx] at hj
    | cons y ys =>
      by_cases h : x ≤ (y :: ys).getD (argminIdx (y :: ys)) 0
      · rw [argminIdx] at hj
        rw [if_pos h] at hj
        exact absurd hj (Nat.not_lt_zero j)
      · rw [argminIdx] at hj ⊢
        simp only [if_neg h] at hj ⊢
        cases j with
        | zero =>
          simp only [List.getD_cons_succ, List.getD_cons_zero]
          exact lt_of_not_le h
        | succ j' =>
          simp only [List.getD_cons_succ]
          exact ih j' (Nat.lt_of_succ_lt_succ hj)

/-- `getD` commutes with `map` at in-range indices, for any defaults. -/
theorem getD_map {α γ : Type} (f : α → γ) :
    ∀ (l : List α) (i : ℕ), i < l.length → ∀ (d₁ : γ) (d₂ : α),
      (l.map f).getD i d₁ = f (l.getD i d₂) := by
  intro l
  induction l with
  | nil => intro i hi; simp at hi
  | cons x xs ih =>
    intro i hi d₁ d₂
    cases i with
    | zero => simp
    | succ i' =>
      simp only [List.map_cons, List.getD_cons_succ]
      exact ih i' (Nat.lt_of_succ_lt_succ hi) d₁ d₂

end Py

/-- C1: the `/similarity` endpoint sorts the candidates by similarity,
    descending, but the `rank` field is computed from the ORIGINAL candidate
    index (`'rank': i+1` with `i` the argsorted original index), not from
    the 1-based position in the sorted list: with similarities `[1/5, 9/10]`
    the top-ranked element carries `rank = 2`, so the ranks are `[2, 1]`
    instead of the claimed `[1, 2]`. -/
theorem claim1_similarity_rank_from_original_index :
    (SA.calculate_similarity "staff" ["A", "B"]
        [mkRat 1 5, mkRat 9 10]).toOption =
      some ("staff",
        [{ text := "B", similarity := mkRat 9 10, rank := 2 },
         { text := "A", similarity := mkRat 1 5, rank := 1 }]) ∧
    [({ text := "B", similarity := mkRat 9 10, rank := 2 } : SA.RankedResult),
     { text := "A", similarity := mkRat 1 5, rank := 1 }].map
      SA.RankedResult.rank ≠ [1, 2] := by
  constructor
  · decide
  · decide

/-- C6: the cluster count derived by the `/analyze` pipeline is
    `min(8, max(3, N // 10))` with integer division, and in particular
    N=20 gives 3, N=79 gives 7, N=100 gives 8 and N=3 gives 3. -/
theorem claim6_cluster_count_formula (N : ℕ) :
    SA.n_clusters N = min 8 (max 3 (N / 10)) ∧
    SA.n_clusters 20 = 3 ∧ SA.n_clusters 79 = 7 ∧
    SA.n_clusters 100 = 8 ∧ SA.n_clusters 3 = 3 :=
  ⟨rfl, rfl, rfl, rfl, rfl⟩

/-- C10: the two pipeline variants' keyword extractors and theme namers are
    extensionally equal: on every input they return identical keyword lists
    and identical theme labels. -/
theorem claim10_variant_equivalence :
    (∀ (comments : List String) (top_n : ℕ),
      SA.extract_keywords comments top_n = NoSSL.extract_keywords comments top_n) ∧
    (∀ keywords : List String,
      SA.generate_theme_name keywords = NoSSL.generate_theme_name keywords) :=
  ⟨fun _ _ => rfl, fun _ => rfl⟩

/-- C2: for every non-empty batch smaller than 3 comments the derived
    cluster count is 3, which exceeds the batch size, and the k-means
    collaborator rejects fewer samples than clusters, so the `/analyze`
    request fails with an internal (HTTP 500) error instead of degrading
    gracefully — the pipeline never caps `k` at `N`. -/
theorem claim2_analyze_small_batch_internal_error
    (comments organizations : List String)
    (encode : List String → List (List ℚ))
    (assign : ℕ → List (List ℚ) → List ℕ × List (List ℚ))
    (cosSim : List ℚ → List ℚ → ℚ)
    (hne : comments ≠ []) (hsmall : comments.length < 3)
    (henc : (encode comments).length = comments.length) :
    SA.analyze_comments comments organizations encode assign cosSim =
      Except.error (500, "n_samples should be >= n_clusters") := by
  have hk : SA.n_clusters comments.length = 3 := by
    unfold SA.n_clusters
    rw [Nat.div_eq_of_lt (by omega)]
    decide
  have hempty : comments.isEmpty = false := by
    cases comments with
    | nil => exact absurd rfl hne
    | cons c cs => rfl
  have hlt : (encode comments).length < 3 := by rw [henc]; exact hsmall
  unfold SA.analyze_comments SA.kmeans_fit_predict
  simp only [hempty, hk, Bool.false_eq_true, if_false]
  rw [if_pos hlt]

/-- Witness for C2 at the failing input: a single comment `"hi"`. -/
theorem claim2_analyze_small_batch_internal_error_witness :
    (["hi"] : List String) ≠ [] ∧ (["hi"] : List String).length < 3 ∧
    SA.analyze_comments ["hi"] ["OrgA"]
        (fun ts => ts.map (fun _ => ([0] : List ℚ)))
        (fun k pts => (pts.map (fun _ => 0), List.replicate k [0]))
        (fun _ _ => 1) =
      Except.error (500, "n_samples should be >= n_clusters") :=
  ⟨by decide, by decide,
   claim2_analyze_small_batch_internal_error ["hi"] ["OrgA"]
     (fun ts => ts.map (fun _ => ([0] : List ℚ)))
     (fun k pts => (pts.map (fun _ => 0), List.replicate k [0]))
     (fun _ _ => 1) (by decide) (by decide) rfl⟩

/-- Counterexample to C3 as stated: on the input `["the. is:,"]` the
    keyword extractor returns `["the", "is"]` — the raw tokens `"the."` and
    `"is:,"` pass the length and stop-word filters (which inspect the token
    BEFORE stripping), and their stripped forms are the stop word `"the"`
    and the 2-character `"is"`. -/
theorem claim3_keyword_filter_counterexample :
    SA.extract_keywords ["the. is:,"] 10 = ["the", "is"] ∧
    ¬ (∀ kw ∈ SA.extract_keywords ["the. is:,"] 10,
        3 < (Py.pyStrip (Py.pyLower kw)).length ∧
          Py.pyStrip (Py.pyLower kw) ∉ SA.stopwords) := by
  constructor
  · decide
  · decide

set_option maxRecDepth 10000 in
/-- Counterexample to C4 as stated: the theme builder does NOT truncate the
    sample comments — on a single 201-character comment the theme's sole
    sample comment still has length 201 (only the representative text is
    truncated to 200). -/
theorem claim4_sample_truncation_counterexample :
    ((SA.extract_themes [String.mk (List.replicate 201 'a')] [0]
        [[(0 : ℚ)]] [[(0 : ℚ)]]).map
      (fun th => th.sample_comments.map String.length)) = [[201]] ∧
    ¬ (∀ th ∈ SA.extract_themes [String.mk (List.replicate 201 'a')] [0]
          [[(0 : ℚ)]] [[(0 : ℚ)]],
        ∀ s ∈ th.sample_comments, s.length ≤ 200) := by
  constructor
  · decide
  · decide

/-- Counterexample to C5 as stated: the organization aggregator of
    `semantic_analyzer.py` (the `/analyze` pipeline variant the claim cites
    first) does NOT skip blank labels: with the single organization label
    `""` the returned mapping contains an entry whose label is empty. -/
theorem claim5_blank_org_counterexample :
    ∃ p ∈ SA.analyze_by_organization ["hello"] [""] [[(1 : ℚ)]]
        (fun _ _ => 1), p.1 = "" := by
  decide

/-- Amended C5: the skip of empty/whitespace-only organization labels is
    implemented only by the `semantic_analyzer_no_ssl.py` variant: its
    aggregator never returns an entry with a blank label. -/
theorem claim5_blank_org_amended
    (comments organizations : List String) (embeddings : List (List ℚ))
    (cosSim : List ℚ → List ℚ → ℚ) :
    ((NoSSL.analyze_by_organization comments organizations embeddings
        cosSim).all (fun p => !(Py.isBlank p.1))) = true := by
  rw [List.all_eq_true]
  intro p hp
  simp only [NoSSL.analyze_by_organization] at hp
  rcases List.mem_filterMap.mp hp with ⟨org, _, hsome⟩
  by_cases hblank : Py.isBlank org
  · rw [if_pos hblank] at hsome
    exact absurd hsome (by simp)
  · rw [if_neg hblank] at hsome
    split at hsome
    · exact absurd hsome (by simp)
    · have hfst : p.1 = org := by
        have h := Option.some.inj hsome
        rw [← h]
      rw [hfst]
      simp only [Bool.not_eq_true] at hblank
      simp [hblank]

/-- Amended C3: the keyword extractor's length and stop-word filters are
    applied to the RAW whitespace token before punctuation stripping: every
    returned keyword is the stripped, lower-cased form of some whitespace
    token whose raw length exceeds 3 and whose lower-cased raw form is not a
    stop word.  (Consequently a stop word or a short word can surface as a
    keyword when the raw token carried punctuation, as the counterexample
    shows.) -/
theorem claim3_keyword_filter_amended
    (comments : List String) (top_n : ℕ) (kw : String)
    (hkw : kw ∈ SA.extract_keywords comments top_n) :
    ∃ c ∈ comments, ∃ w ∈ Py.pySplit c,
      3 < w.length ∧ Py.pyLower w ∉ SA.stopwords ∧
        kw = Py.pyStrip (Py.pyLower w) := by
  simp only [SA.extract_keywords] at hkw
  have h1 := List.mem_of_mem_take hkw
  rcases List.mem_map.mp h1 with ⟨p, hp, hfst⟩
  have h2 := (Py.mem_sortByDesc _ _ _).mp hp
  rcases List.mem_map.mp h2 with ⟨w0, hw0, hpair⟩
  have h3 := Py.mem_of_mem_uniqKeepFirst _ _ hw0
  rcases List.mem_flatMap.mp h3 with ⟨c, hc, hw⟩
  rcases List.mem_map.mp hw with ⟨w, hwmem, hstrip⟩
  have h4 := List.mem_filter.mp hwmem
  have h5 := h4.2
  simp only [Bool.and_eq_true, decide_eq_true_eq, Bool.not_eq_true'] at h5
  refine ⟨c, hc, w, h4.1, h5.1, ?_, ?_⟩
  · simpa using h5.2
  · calc kw = p.1 := hfst.symm
      _ = w0 := by rw [← hpair]
      _ = Py.pyStrip (Py.pyLower w) := hstrip.symm

/-- Witness for the amended C3. -/
theorem claim3_keyword_filter_amended_witness :
    "alpha" ∈ SA.extract_keywords ["alpha beta"] 10 ∧
    (∃ c ∈ ["alpha beta"], ∃ w ∈ Py.pySplit c,
      3 < w.length ∧ Py.pyLower w ∉ SA.stopwords ∧
        "alpha" = Py.pyStrip (Py.pyLower w)) :=
  ⟨by decide,
   claim3_keyword_filter_amended ["alpha beta"] 10 "alpha" (by decide)⟩

namespace SA

theorem mkTheme_eq_none (comments : List String) (labels : List ℕ)
    (embeddings centroids : List (List ℚ)) (cid : ℕ)
    (h : (clusterMembers comments labels cid).isEmpty) :
    mkTheme comments labels embeddings centroids cid = none := by
  simp only [mkTheme, h, if_true]

theorem mkTheme_fields (comments : List String) (labels : List ℕ)
    (embeddings centroids : List (List ℚ)) (cid : ℕ) (t : Theme)
    (h : mkTheme comments labels embeddings centroids cid = some t) :
    t.theme_id = cid ∧
    t.comment_count = (clusterMembers comments labels cid).length ∧
    t.representative_comment =
      Py.strTake ((clusterMembers comments labels cid).getD
        (Py.argminIdx ((clusterEmbs embeddings labels cid).map
          (fun v => sqDist v (centroids.getD cid [])))) "") 200 ∧
    t.sample_comments = (clusterMembers comments labels cid).take 3 := by
  by_cases he : (clusterMembers comments labels cid).isEmpty
  · rw [mkTheme_eq_none _ _ _ _ _ he] at h
    exact absurd h (by simp)
  · simp only [mkTheme, he, if_false, Bool.false_eq_true] at h
    have ht := Option.some.inj h
    rw [← ht]
    exact ⟨rfl, rfl, rfl, rfl⟩

theorem mkTheme_none_length (comments : List String) (labels : List ℕ)
    (embeddings centroids : List (List ℚ)) (cid : ℕ)
    (h : mkTheme comments labels embeddings centroids cid = none) :
    (clusterMembers comments labels cid).length = 0 := by
  by_cases he : (clusterMembers comments labels cid).isEmpty
  · rw [List.length_eq_zero]
    exact List.isEmpty_iff.mp he
  · simp only [mkTheme, he, if_false, Bool.false_eq_true] at h
    exact absurd h (by simp)

end SA

theorem sum_map_add_nat {γ : Type} (l : List γ) (f g : γ → ℕ) :
    (l.map (fun x => f x + g x)).sum = (l.map f).sum + (l.map g).sum := by
  induction l with
  | nil => simp
  | cons a l ih =>
    simp only [List.map_cons, List.sum_cons, ih]
    omega

theorem sum_indicator_range_ge (v k : ℕ) (h : k ≤ v) :
    ((List.range k).map (fun c => if v = c then (1 : ℕ) else 0)).sum = 0 := by
  induction k with
  | zero => simp
  | succ k ih =>
    rw [List.range_succ, List.map_append, List.sum_append]
    have hvk : v ≠ k := by omega
    simp [hvk, ih (by omega)]

theorem sum_indicator_range_lt (v k : ℕ) (h : v < k) :
    ((List.range k).map (fun c => if v = c then (1 : ℕ) else 0)).sum = 1 := by
  induction k with
  | zero => omega
  | succ k ih =>
    rw [List.range_succ, List.map_append, List.sum_append]
    by_cases hv : v = k
    · subst hv
      simp [sum_indicator_range_ge v v le_rfl]
    · simp [hv, ih (by omega)]

theorem sum_filter_lengths {γ : Type} (pairs : List (γ × ℕ)) (k : ℕ)
    (hk : ∀ p ∈ pairs, p.2 < k) :
    ((List.range k).map
      (fun cid => ((pairs.filter (fun p => p.2 == cid)).length))).sum =
      pairs.length := by
  induction pairs with
  | nil => simp
  | cons p ps ih =>
    have hlen : ∀ cid ∈ List.range k,
        (((p :: ps).filter (fun q => q.2 == cid)).length) =
          (if p.2 = cid then (1 : ℕ) else 0) +
            ((ps.filter (fun q => q.2 == cid)).length) := by
      intro cid _
      by_cases h : p.2 = cid
      · simp only [List.filter_cons, h]
        simp
        omega
      · simp [List.filter_cons, h]
    rw [List.map_congr_left hlen, sum_map_add_nat,
      sum_indicator_range_lt p.2 k (hk p (List.mem_cons_self _ _)),
      ih (fun q hq => hk q (List.mem_cons_of_mem _ hq))]
    simp only [List.length_cons]
    omega

theorem pairwise_filterMap_of {γ : Type} (f : ℕ → Option γ)
    (P : γ → γ → Prop)
    (hf : ∀ a b x y, a < b → f a = some x → f b = some y → P x y) :
    ∀ l : List ℕ, l.Pairwise (· < ·) → (l.filterMap f).Pairwise P := by
  intro l hl
  induction l with
  | nil => simp
  | cons a l ih =>
    rw [List.pairwise_cons] at hl
    rw [List.filterMap_cons]
    cases hfa : f a with
    | none => exact ih hl.2
    | some x =>
      refine List.pairwise_cons.mpr ⟨?_, ih hl.2⟩
      intro y hy
      rcases List.mem_filterMap.mp hy with ⟨b, hb, hfb⟩
      exact hf a b x y (hl.1 b hb) hfa hfb

/-- C7: the theme list returned by `extract_themes` sums its member counts
    to the batch size N (empty clusters are dropped and contribute nothing),
    and is sorted by member count descending with ties preserving ascending
    cluster-id order.  The hypotheses state the k-means contract: one label
    per comment, each label a valid cluster id. -/
theorem claim7_theme_order_and_member_count_sum
    (comments : List String) (labels : List ℕ)
    (embeddings centroids : List (List ℚ))
    (hc : comments.length = labels.length)
    (hlab : ∀ l ∈ labels, l < centroids.length) :
    ((SA.extract_themes comments labels embeddings centroids).map
        (fun t => t.comment_count)).sum = comments.length ∧
    (SA.extract_themes comments labels embeddings centroids).Pairwise
      (fun a b => b.comment_count < a.comment_count ∨
        (a.comment_count = b.comment_count ∧ a.theme_id < b.theme_id)) := by
  constructor
  · rw [SA.extract_themes, Py.sum_map_sortByDesc]
    have hstep :
        (((List.range centroids.length).filterMap
            (SA.mkTheme comments labels embeddings centroids)).map
          (fun t => t.comment_count)).sum =
        ((List.range centroids.length).map
          (fun cid => (SA.clusterMembers comments labels cid).length)).sum := by
      generalize List.range centroids.length = l
      induction l with
      | nil => simp
      | cons a l ih =>
        rw [List.filterMap_cons]
        cases hfa : SA.mkTheme comments labels embeddings centroids a with
        | none =>
          simp only [List.map_cons, List.sum_cons,
            SA.mkTheme_none_length comments labels embeddings centroids a hfa,
            ih]
          omega
        | some t =>
          simp only [List.map_cons, List.sum_cons, ih,
            (SA.mkTheme_fields comments labels embeddings centroids a t
              hfa).2.1]
    rw [hstep]
    have hmem : ∀ cid ∈ List.range centroids.length,
        (SA.clusterMembers comments labels cid).length =
          (((comments.zip labels).filter (fun p => p.2 == cid)).length) := by
      intro cid _
      simp [SA.clusterMembers]
    rw [List.map_congr_left hmem,
      sum_filter_lengths (comments.zip labels) centroids.length
        (fun p hp => hlab p.2 (List.of_mem_zip hp).2),
      List.length_zip, hc]
    simp
  · rw [SA.extract_themes]
    refine Py.pairwise_sortByDesc (fun t : SA.Theme => t.comment_count)
      (fun a b : SA.Theme => a.theme_id < b.theme_id) _ ?_
    refine pairwise_filterMap_of _ _ ?_ _
      (List.pairwise_lt_range centroids.length)
    intro a b x y hab hfa hfb
    rw [(SA.mkTheme_fields comments labels embeddings centroids a x hfa).1,
      (SA.mkTheme_fields comments labels embeddings centroids b y hfb).1]
    exact hab

/-- Witness for C7 on a concrete batch of two comments in two clusters
    (three centroids, the third cluster empty and dropped). -/
theorem claim7_theme_order_and_member_count_sum_witness :
    ((["a", "b"] : List String).length = ([0, 1] : List ℕ).length) ∧
    (∀ l ∈ ([0, 1] : List ℕ),
      l < ([[(0 : ℚ)], [0], [0]] : List (List ℚ)).length) ∧
    (((SA.extract_themes ["a", "b"] [0, 1] [[(0 : ℚ)], [0]]
          [[(0 : ℚ)], [0], [0]]).map (fun t => t.comment_count)).sum =
        (["a", "b"] : List String).length ∧
      (SA.extract_themes ["a", "b"] [0, 1] [[(0 : ℚ)], [0]]
          [[(0 : ℚ)], [0], [0]]).Pairwise
        (fun a b => b.comment_count < a.comment_count ∨
          (a.comment_count = b.comment_count ∧ a.theme_id < b.theme_id))) :=
  ⟨rfl, by decide,
   claim7_theme_order_and_member_count_sum ["a", "b"] [0, 1]
     [[(0 : ℚ)], [0]] [[(0 : ℚ)], [0], [0]] rfl (by decide)⟩

theorem sum_range_rev_two (m : ℕ) :
    2 * ((List.range m).map (fun i => m - (i + 1))).sum = m * (m - 1) := by
  induction m with
  | zero => simp
  | succ m ih =>
    rw [List.range_succ, List.map_append, List.sum_append]
    have hlast : ((([m] : List ℕ)).map (fun i => m + 1 - (i + 1))).sum = 0 := by
      simp
    have hcong : ∀ i ∈ List.range m, m + 1 - (i + 1) = (m - (i + 1)) + 1 := by
      intro i hi
      have := List.mem_range.mp hi
      omega
    rw [hlast, List.map_congr_left hcong, sum_map_add_nat]
    have hone : ((List.range m).map (fun _ => (1 : ℕ))).sum = m := by
      simp [List.map_const', List.sum_replicate, smul_eq_mul]
    rw [hone, Nat.add_zero, Nat.mul_add, ih]
    cases m with
    | zero => simp
    | succ n =>
      simp only [Nat.succ_sub_one]
      ring

theorem length_upper_tri_sims (cosSim : List ℚ → List ℚ → ℚ)
    (vs : List (List ℚ)) :
    (SA.upper_tri_sims cosSim vs).length =
      vs.length * (vs.length - 1) / 2 := by
  rw [SA.upper_tri_sims, List.length_flatMap]
  have hcong : ∀ i ∈ List.range vs.length,
      (List.length ∘ fun i =>
        (List.range' (i + 1) (vs.length - (i + 1))).map
          (fun j => cosSim (vs.getD i []) (vs.getD j []))) i =
        vs.length - (i + 1) := by
    intro i _
    simp [List.length_range']
  rw [List.map_congr_left hcong, ← Nat.mul_div_cancel_left
    (((List.range vs.length).map (fun i => vs.length - (i + 1))).sum)
    (show 0 < 2 by norm_num), sum_range_rev_two]

theorem orgProfile_eq_some (comments organizations : List String)
    (embeddings : List (List ℚ)) (cosSim : List ℚ → List ℚ → ℚ)
    (org : String) (q : String × SA.OrgProfile)
    (h : SA.orgProfile comments organizations embeddings cosSim org = some q) :
    q.1 = org ∧
    q.2.comment_count = (SA.orgIndices organizations org).length ∧
    q.2.coherence_score =
      (if 1 < (SA.orgIndices organizations org).length then
        (SA.upper_tri_sims cosSim ((SA.orgIndices organizations org).map
            (fun i => embeddings.getD i []))).sum /
          (((SA.upper_tri_sims cosSim ((SA.orgIndices organizations org).map
            (fun i => embeddings.getD i []))).length : ℕ) : ℚ)
      else 1) := by
  by_cases hi : (SA.orgIndices organizations org).isEmpty
  · simp [SA.orgProfile, hi] at h
  · simp only [SA.orgProfile, hi, if_false, Bool.false_eq_true] at h
    have hq := Option.some.inj h
    rw [← hq]
    refine ⟨rfl, by simp, ?_⟩
    simp [List.length_map]

/-- C8: every organization profile emitted by the aggregator carries a
    coherence score that is exactly 1 for a single-member group, and for a
    group of m ≥ 2 members is the mean of the m(m-1)/2 strictly-upper-
    triangular entries of the intra-group cosine-similarity matrix (the
    similarity function itself is the abstract external collaborator
    `cosSim`). -/
theorem claim8_coherence_score
    (comments organizations : List String) (embeddings : List (List ℚ))
    (cosSim : List ℚ → List ℚ → ℚ) (org : String) (p : SA.OrgProfile)
    (hp : (org, p) ∈ SA.analyze_by_organization comments organizations
        embeddings cosSim) :
    p.comment_count = (SA.orgIndices organizations org).length ∧
    ((SA.orgIndices organizations org).length = 1 →
      p.coherence_score = 1) ∧
    (1 < (SA.orgIndices organizations org).length →
      (SA.upper_tri_sims cosSim ((SA.orgIndices organizations org).map
          (fun i => embeddings.getD i []))).length =
        (SA.orgIndices organizations org).length *
          ((SA.orgIndices organizations org).length - 1) / 2 ∧
      p.coherence_score =
        (SA.upper_tri_sims cosSim ((SA.orgIndices organizations org).map
            (fun i => embeddings.getD i []))).sum /
          (((SA.orgIndices organizations org).length *
            ((SA.orgIndices organizations org).length - 1) / 2 : ℕ) : ℚ)) := by
  rw [SA.analyze_by_organization] at hp
  rcases List.mem_filterMap.mp hp with ⟨o, _, hsome⟩
  have hfields :=
    orgProfile_eq_some comments organizations embeddings cosSim o _ hsome
  have ho : o = org := hfields.1.symm
  subst ho
  have hcount : p.comment_count = (SA.orgIndices organizations o).length :=
    hfields.2.1
  have hcoh := hfields.2.2
  refine ⟨hcount, ?_, ?_⟩
  · intro h1
    rw [hcoh, if_neg (by omega)]
  · intro h2
    have hlen := length_upper_tri_sims cosSim
      ((SA.orgIndices organizations o).map (fun i => embeddings.getD i []))
    rw [List.length_map] at hlen
    refine ⟨hlen, ?_⟩
    rw [hcoh, if_pos h2, hlen]

/-- Witness for C8 on a single-member organization (its coherence score is
    exactly 1). -/
theorem claim8_coherence_score_witness :
    (("A", SA.OrgProfile.mk 1 1 []) ∈
      SA.analyze_by_organization ["x"] ["A"] [[(1 : ℚ)]] (fun _ _ => 1)) ∧
    ((SA.OrgProfile.mk 1 1 []).comment_count =
      (SA.orgIndices ["A"] "A").length ∧
    ((SA.orgIndices ["A"] "A").length = 1 →
      (SA.OrgProfile.mk 1 1 []).coherence_score = 1) ∧
    (1 < (SA.orgIndices ["A"] "A").length →
      (SA.upper_tri_sims (fun _ _ => 1) ((SA.orgIndices ["A"] "A").map
          (fun i => ([[(1 : ℚ)]] : List (List ℚ)).getD i []))).length =
        (SA.orgIndices ["A"] "A").length *
          ((SA.orgIndices ["A"] "A").length - 1) / 2 ∧
      (SA.OrgProfile.mk 1 1 []).coherence_score =
        (SA.upper_tri_sims (fun _ _ => 1) ((SA.orgIndices ["A"] "A").map
            (fun i => ([[(1 : ℚ)]] : List (List ℚ)).getD i []))).sum /
          (((SA.orgIndices ["A"] "A").length *
            ((SA.orgIndices ["A"] "A").length - 1) / 2 : ℕ) : ℚ))) :=
  ⟨by decide,
   claim8_coherence_score ["x"] ["A"] [[(1 : ℚ)]]
     (fun _ _ => 1) "A" (SA.OrgProfile.mk 1 1 []) (by decide)⟩

/-- C9: every pair emitted by the similarity finder at the pipeline's fixed
    threshold 0.7 arises from an index pair `i < j` within the batch whose
    similarity reaches the threshold, carries both texts truncated to 150
    characters and the similarity score; the full list is sorted by
    similarity, descending; and the `/analyze` response keeps at most the
    top 20 pairs. -/
theorem claim9_similar_pairs
    (comments : List String) (sim : ℕ → ℕ → ℚ) (p : SA.SimilarPair)
    (hp : p ∈ SA.find_similar_comments comments sim (mkRat 7 10)) :
    (∃ i j, i < j ∧ j < comments.length ∧ mkRat 7 10 ≤ sim i j ∧
      p.comment1 = Py.strTake (comments.getD i "") 150 ∧
      p.comment2 = Py.strTake (comments.getD j "") 150 ∧
      p.similarity = sim i j) ∧
    (SA.find_similar_comments comments sim (mkRat 7 10)).Pairwise
      (fun a b => b.similarity ≤ a.similarity) ∧
    (∀ (organizations : List String)
        (encode : List String → List (List ℚ))
        (assign : ℕ → List (List ℚ) → List ℕ × List (List ℚ))
        (cosSim : List ℚ → List ℚ → ℚ) (r : SA.AnalyzeResult),
      SA.analyze_comments comments organizations encode assign cosSim =
        Except.ok r → r.similar_comment_pairs.length ≤ 20) := by
  refine ⟨?_, ?_, ?_⟩
  · rw [SA.find_similar_comments] at hp
    have hp' := (Py.mem_sortByDesc _ _ _).mp hp
    rcases List.mem_flatMap.mp hp' with ⟨i, hi, hinner⟩
    rcases List.mem_filterMap.mp hinner with ⟨j, hj, hsome⟩
    have hij := List.mem_range'_1.mp hj
    have hin := List.mem_range.mp hi
    refine ⟨i, j, by omega, by omega, ?_⟩
    split at hsome
    case isTrue hthr =>
      have hq := Option.some.inj hsome
      rw [← hq]
      exact ⟨hthr, rfl, rfl, rfl⟩
    case isFalse => exact absurd hsome (by simp)
  · rw [SA.find_similar_comments]
    exact Py.sorted_sortByDesc (fun q : SA.SimilarPair => q.similarity) _
  · intro organizations encode assign cosSim r hr
    rw [SA.analyze_comments] at hr
    by_cases he : comments.isEmpty
    · rw [if_pos he] at hr
      exact absurd hr (by simp)
    · rw [if_neg he] at hr
      simp only [] at hr
      split at hr
      · exact absurd hr (by simp)
      · have hq := Except.ok.inj hr
        rw [← hq]
        exact List.length_take_le _ _

/-- Witness for C9 on two comments whose similarity is 1. -/
theorem claim9_similar_pairs_witness :
    (SA.SimilarPair.mk "aa" "bb" 1 ∈
      SA.find_similar_comments ["aa", "bb"] (fun _ _ => 1) (mkRat 7 10)) ∧
    ((∃ i j, i < j ∧ j < (["aa", "bb"] : List String).length ∧
      mkRat 7 10 ≤ (1 : ℚ) ∧
      (SA.SimilarPair.mk "aa" "bb" 1).comment1 =
        Py.strTake ((["aa", "bb"] : List String).getD i "") 150 ∧
      (SA.SimilarPair.mk "aa" "bb" 1).comment2 =
        Py.strTake ((["aa", "bb"] : List String).getD j "") 150 ∧
      (SA.SimilarPair.mk "aa" "bb" 1).similarity = 1) ∧
    (SA.find_similar_comments ["aa", "bb"] (fun _ _ => 1)
        (mkRat 7 10)).Pairwise
      (fun a b => b.similarity ≤ a.similarity) ∧
    (∀ (organizations : List String)
        (encode : List String → List (List ℚ))
        (assign : ℕ → List (List ℚ) → List ℕ × List (List ℚ))
        (cosSim : List ℚ → List ℚ → ℚ) (r : SA.AnalyzeResult),
      SA.analyze_comments ["aa", "bb"] organizations encode assign cosSim =
        Except.ok r → r.similar_comment_pairs.length ≤ 20)) :=
  ⟨by decide,
   claim9_similar_pairs ["aa", "bb"] (fun _ _ => 1)
     (SA.SimilarPair.mk "aa" "bb" 1) (by decide)⟩

theorem filter_zip_length {γ : Type} :
    ∀ (xs : List γ) (ls : List ℕ), xs.length = ls.length → ∀ cid : ℕ,
      ((xs.zip ls).filter (fun p => p.2 == cid)).length =
        ls.countP (fun l => l == cid) := by
  intro xs
  induction xs with
  | nil =>
    intro ls h cid
    cases ls with
    | nil => simp
    | cons l ls' => simp at h
  | cons x xs ih =>
    intro ls h cid
    cases ls with
    | nil => simp at h
    | cons l ls' =>
      have h' : xs.length = ls'.length := by simpa using h
      simp only [List.zip_cons_cons, List.filter_cons, List.countP_cons]
      by_cases hl : (l == cid) = true
      · simp [hl, ih ls' h' cid]
      · simp [hl, ih ls' h' cid]

theorem clusterMembers_length_eq (comments : List String) (labels : List ℕ)
    (embeddings : List (List ℚ)) (cid : ℕ)
    (hc : comments.length = labels.length)
    (he : embeddings.length = labels.length) :
    (SA.clusterMembers comments labels cid).length =
      (SA.clusterEmbs embeddings labels cid).length := by
  simp only [SA.clusterMembers, SA.clusterEmbs, List.length_map]
  rw [filter_zip_length comments labels hc cid,
    filter_zip_length embeddings labels he cid]

/-- Amended C4: for every non-empty cluster, the produced theme's
    representative comment is the member at the first index minimizing the
    (squared, hence also Euclidean) distance to the centroid — the minimum
    over the cluster, strictly smaller than every earlier member's distance
    (ties broken by lowest original index) — truncated to 200 characters,
    and the sample comments are the first up-to-3 members in original order
    WITHOUT truncation. -/
theorem claim4_representative_and_samples_amended
    (comments : List String) (labels : List ℕ)
    (embeddings centroids : List (List ℚ))
    (hc : comments.length = labels.length)
    (he : embeddings.length = labels.length)
    (cid : ℕ) (hcid : cid < centroids.length)
    (hne : SA.clusterMembers comments labels cid ≠ []) :
    ∃ th ∈ SA.extract_themes comments labels embeddings centroids,
      th.theme_id = cid ∧
      th.sample_comments = (SA.clusterMembers comments labels cid).take 3 ∧
      ∃ r < (SA.clusterMembers comments labels cid).length,
        th.representative_comment =
          Py.strTake ((SA.clusterMembers comments labels cid).getD r "")
            200 ∧
        (∀ j < (SA.clusterMembers comments labels cid).length,
          SA.sqDist ((SA.clusterEmbs embeddings labels cid).getD r [])
              (centroids.getD cid []) ≤
            SA.sqDist ((SA.clusterEmbs embeddings labels cid).getD j [])
              (centroids.getD cid [])) ∧
        (∀ j < r,
          SA.sqDist ((SA.clusterEmbs embeddings labels cid).getD r [])
              (centroids.getD cid []) <
            SA.sqDist ((SA.clusterEmbs embeddings labels cid).getD j [])
              (centroids.getD cid [])) := by
  have hne_b : (SA.clusterMembers comments labels cid).isEmpty = false := by
    cases hmm : SA.clusterMembers comments labels cid with
    | nil => exact absurd hmm hne
    | cons a l => rfl
  have hmk : SA.mkTheme comments labels embeddings centroids cid =
      some { theme_id := cid,
             theme_name := SA.generate_theme_name
               (SA.extract_keywords (SA.clusterMembers comments labels cid)
                 10),
             comment_count := (SA.clusterMembers comments labels cid).length,
             keywords := (SA.extract_keywords
               (SA.clusterMembers comments labels cid) 10).take 10,
             representative_comment :=
               Py.strTake ((SA.clusterMembers comments labels cid).getD
                 (Py.argminIdx ((SA.clusterEmbs embeddings labels cid).map
                   (fun v => SA.sqDist v (centroids.getD cid [])))) "") 200,
             sample_comments :=
               (SA.clusterMembers comments labels cid).take 3 } := by
    simp only [SA.mkTheme, hne_b, if_false, Bool.false_eq_true]
  obtain ⟨t, hmk'⟩ : ∃ t, SA.mkTheme comments labels embeddings centroids
      cid = some t := ⟨_, hmk⟩
  obtain ⟨hid, _, hrep, hsamp⟩ :=
    SA.mkTheme_fields comments labels embeddings centroids cid t hmk'
  refine ⟨t, ?_, hid, hsamp, ?_⟩
  · rw [SA.extract_themes, Py.mem_sortByDesc]
    exact List.mem_filterMap.mpr ⟨cid, List.mem_range.mpr hcid, hmk'⟩
  · have hms_ce : (SA.clusterMembers comments labels cid).length =
        (SA.clusterEmbs embeddings labels cid).length :=
      clusterMembers_length_eq comments labels embeddings cid hc he
    have hd_len : ((SA.clusterEmbs embeddings labels cid).map
        (fun v => SA.sqDist v (centroids.getD cid []))).length =
        (SA.clusterEmbs embeddings labels cid).length :=
      List.length_map _ _
    have hd_ne : ((SA.clusterEmbs embeddings labels cid).map
        (fun v => SA.sqDist v (centroids.getD cid []))) ≠ [] := by
      intro h0
      apply hne
      have hz : (SA.clusterMembers comments labels cid).length = 0 := by
        rw [hms_ce, ← hd_len, h0]
        rfl
      exact List.length_eq_zero.mp hz
    have hr_lt := Py.argminIdx_lt_length _ hd_ne
    rw [hd_len] at hr_lt
    refine ⟨Py.argminIdx ((SA.clusterEmbs embeddings labels cid).map
      (fun v => SA.sqDist v (centroids.getD cid []))), ?_, hrep, ?_, ?_⟩
    · rw [hms_ce]
      exact hr_lt
    · intro j hj
      have hjce : j < (SA.clusterEmbs embeddings labels cid).length := by
        rw [← hms_ce]
        exact hj
      have hj' : j < ((SA.clusterEmbs embeddings labels cid).map
          (fun v => SA.sqDist v (centroids.getD cid []))).length := by
        rw [hd_len]
        exact hjce
      have hmin := Py.argminIdx_min _ j hj'
      rw [Py.getD_map (fun v => SA.sqDist v (centroids.getD cid []))
          (SA.clusterEmbs embeddings labels cid)
          (Py.argminIdx ((SA.clusterEmbs embeddings labels cid).map
            (fun v => SA.sqDist v (centroids.getD cid [])))) hr_lt 0 [],
        Py.getD_map (fun v => SA.sqDist v (centroids.getD cid []))
          (SA.clusterEmbs embeddings labels cid) j hjce 0 []] at hmin
      exact hmin
    · intro j hjr
      have hfirst := Py.argminIdx_first _ j hjr
      have hjce : j < (SA.clusterEmbs embeddings labels cid).length :=
        lt_trans hjr hr_lt
      rw [Py.getD_map (fun v => SA.sqDist v (centroids.getD cid []))
          (SA.clusterEmbs embeddings labels cid)
          (Py.argminIdx ((SA.clusterEmbs embeddings labels cid).map
            (fun v => SA.sqDist v (centroids.getD cid [])))) hr_lt 0 [],
        Py.getD_map (fun v => SA.sqDist v (centroids.getD cid []))
          (SA.clusterEmbs embeddings labels cid) j hjce 0 []] at hfirst
      exact hfirst

/-- Witness for the amended C4 on a two-member cluster whose second member
    is closest to the centroid. -/
theorem claim4_representative_and_samples_amended_witness :
    ((["aa", "bb"] : List String).length = ([0, 0] : List ℕ).length) ∧
    (([[(0 : ℚ)], [2]] : List (List ℚ)).length =
      ([0, 0] : List ℕ).length) ∧
    (0 < ([[(3 : ℚ)]] : List (List ℚ)).length) ∧
    (SA.clusterMembers ["aa", "bb"] [0, 0] 0 ≠ []) ∧
    (∃ th ∈ SA.extract_themes ["aa", "bb"] [0, 0] [[(0 : ℚ)], [2]]
        [[(3 : ℚ)]],
      th.theme_id = 0 ∧
      th.sample_comments = (SA.clusterMembers ["aa", "bb"] [0, 0] 0).take 3 ∧
      ∃ r < (SA.clusterMembers ["aa", "bb"] [0, 0] 0).length,
        th.representative_comment =
          Py.strTake ((SA.clusterMembers ["aa", "bb"] [0, 0] 0).getD r "")
            200 ∧
        (∀ j < (SA.clusterMembers ["aa", "bb"] [0, 0] 0).length,
          SA.sqDist ((SA.clusterEmbs [[(0 : ℚ)], [2]] [0, 0] 0).getD r [])
              (([[(3 : ℚ)]] : List (List ℚ)).getD 0 []) ≤
            SA.sqDist ((SA.clusterEmbs [[(0 : ℚ)], [2]] [0, 0] 0).getD j [])
              (([[(3 : ℚ)]] : List (List ℚ)).getD 0 [])) ∧
        (∀ j < r,
          SA.sqDist ((SA.clusterEmbs [[(0 : ℚ)], [2]] [0, 0] 0).getD r [])
              (([[(3 : ℚ)]] : List (List ℚ)).getD 0 []) <
            SA.sqDist ((SA.clusterEmbs [[(0 : ℚ)], [2]] [0, 0] 0).getD j [])
              (([[(3 : ℚ)]] : List (List ℚ)).getD 0 []))) :=
  ⟨rfl, rfl, by decide, by decide,
   claim4_representative_and_samples_amended ["aa", "bb"] [0, 0]
     [[(0 : ℚ)], [2]] [[(3 : ℚ)]] rfl rfl 0 (by decide) (by decide)⟩
